import Mathlib

/-
Verification of the token-rotating request client and the domain normalizer
of cloudflare-gateway-pihole-scripts.

The repository holds two near-duplicate copies of the same module:
`src/lib/helpers.js` (variant A below) and `src/unnamed/part_000`
(variant B below).  Both export a `request` retry loop and a pure
`normalizeDomain` string transformation; the two copies of
`normalizeDomain` are textually identical, while the two retry loops
differ in several observable ways that the theorems below make precise.

Modelling conventions:
- one `fetch` outcome is a `FetchResult`; a whole run is driven by an
  environment `env : Nat → FetchResult` giving the outcome of the m-th
  fetch performed (the source's `attempts` counter indexes it, since both
  loops increment `attempts` exactly once per fetch that fails and return
  on a fetch that succeeds);
- the JSON body is opaque (a string);
- possibly-`undefined` JS strings are `Option String`, and the JS number
  `tokenIndex`, which `(i + 1) % 0` turns into `NaN` when the credential
  list is empty, is `Option Nat` with `none` for `NaN`;
- side effects are recorded in order in a list of `Event`s: each HTTP
  attempt (with the token used and the header set sent), each 5000 ms
  backoff `wait`, and each `notifyWebhook` invocation.
-/

set_option linter.unusedVariables false

namespace CGPS

/-- Result of one `fetch` call as observed by the retry loops: either the
promise rejects (network-level error), or a response arrives carrying an
HTTP status code together with the parsed body when `response.json()`
succeeds (`none` models a body that fails to parse). -/
inductive FetchResult where
  | netError : FetchResult
  | reply : Nat → Option String → FetchResult
deriving DecidableEq

/-- `Response.ok` of the web platform: status in the range 200..299. -/
def statusOk (status : Nat) : Bool := 200 ≤ status && status < 300

/-- The parsed body of a fetch outcome that the loops treat as a success
(2xx status and a JSON-parseable body); `none` for every failing outcome. -/
def fetchSuccess : FetchResult → Option String
  | .reply status (some body) => if statusOk status then some body else none
  | _ => none

/-- Text that a JS template literal renders for a possibly-undefined
string (`undefined` prints as "undefined"). -/
def jsStr : Option String → String
  | some s => s
  | none => "undefined"

/-- JS falsiness of a possibly-undefined string: `undefined` and the
empty string are falsy. -/
def jsFalsy : Option String → Bool
  | none => true
  | some s => s == ""

/-- `tokenIndex = (tokenIndex + 1) % tokens.length` on a JS number that
may be `NaN` (`none`): arithmetic on `NaN` yields `NaN`, and `% 0` yields
`NaN`. -/
def rotate (len : Nat) : Option Nat → Option Nat
  | none => none
  | some i => if len = 0 then none else some ((i + 1) % len)

/-- `tokens[tokenIndex]`: `undefined` when the index is `NaN` or out of
range. -/
def getTok (tokens : List String) : Option Nat → Option String
  | none => none
  | some i => tokens.get? i

/-- Observable actions of one run, in order: an HTTP attempt (token used,
header set sent), the 5000 ms backoff, a `notifyWebhook` call with its
message argument. -/
inductive Event where
  | attempt : Option String → List (String × String) → Event
  | backoff : Event
  | notify : String → Event
deriving DecidableEq

/-- Outcome of a run: the returned parsed body, a raised error with its
message, the implicit `undefined` return of part_000 should its loop ever
exit normally, or divergence (the run exceeds every fuel bound, as
part_000 does on an empty credential list). -/
inductive ReqResult where
  | ok : String → ReqResult
  | error : String → ReqResult
  | undef : ReqResult
  | diverge : ReqResult
deriving DecidableEq

def ReqResult.isOk : ReqResult → Bool
  | .ok _ => true
  | _ => false

def ReqResult.isError : ReqResult → Bool
  | .error _ => true
  | _ => false

def isAttempt : Event → Bool
  | .attempt _ _ => true
  | _ => false

def isBackoff : Event → Bool
  | .backoff => true
  | _ => false

def isNotify : Event → Bool
  | .notify _ => true
  | _ => false

/-- Number of HTTP attempts recorded in a trace. -/
def attemptCount (evs : List Event) : Nat := (evs.filter isAttempt).length

/-- Number of 5000 ms backoff delays recorded in a trace. -/
def backoffCount (evs : List Event) : Nat := (evs.filter isBackoff).length

/-- Number of webhook notifications recorded in a trace. -/
def notifyCount (evs : List Event) : Nat := (evs.filter isNotify).length

/-- JS object spread `{...first, ...second}` restricted to what the claims
observe, its key-to-value map: an association list read through
`List.lookup` (first match wins), so the later spread, which shadows the
earlier one in JS, is placed first.  The key order of the JS object is not
observable here. -/
def spreadMerge (first second : List (String × String)) : List (String × String) :=
  second ++ first

/-- The `headers` object literal of helpers.js lines 97..101: bearer
authorization and content type, plus the `X-Auth-Email` / `X-Auth-Key`
pair exactly when `currentToken === API_KEY` (JS `===`, which also holds
when both sides are `undefined`). -/
def authHeadersA (tok apiKey accountEmail : Option String) : List (String × String) :=
  [("Authorization", "Bearer " ++ jsStr tok), ("Content-Type", "application/json")] ++
    (if tok = apiKey then
      [("X-Auth-Email", jsStr accountEmail), ("X-Auth-Key", jsStr apiKey)]
    else [])

/-- The `headers` object literal of part_000 lines 108..111. -/
def authHeadersB (tok : Option String) : List (String × String) :=
  [("Authorization", "Bearer " ++ jsStr tok), ("Content-Type", "application/json")]

/-- helpers.js line 84:
`[API_TOKEN_1, API_TOKEN_2, API_TOKEN_3, API_TOKEN].filter(Boolean)`. -/
def credsA (t1 t2 t3 t : Option String) : List String :=
  ([t1, t2, t3, t].filterMap id).filter (fun s => !(s == ""))

/-- part_000 line 92:
`[API_TOKEN, API_TOKEN_1, API_TOKEN_2, API_TOKEN_3].filter(Boolean)`. -/
def credsB (t t1 t2 t3 : Option String) : List String :=
  ([t, t1, t2, t3].filterMap id).filter (fun s => !(s == ""))

/-- Rendering of `response ? response.status : 'unknown status'`. -/
def statusText : Option Nat → String
  | some s => toString s
  | none => "unknown status"

/-- The message part_000 passes to `notifyWebhook` on exhaustion
(lines 141..145). -/
def notifyMsg (resp : Option Nat) : String :=
  "An HTTP error has occurred (" ++ statusText resp ++
    ") while making a web request. Please check the logs for further details."

/-- The message of the error part_000 throws on exhaustion
(lines 146..150); when `response` is still `undefined` the template
literal itself raises a `TypeError`.  The parsed body is opaque in this
model, so the `errors`-array projection of the source is rendered as the
raw body text. -/
def exhaustMsg (resp : Option Nat) (data : Option String) (err : String) : String :=
  match resp with
  | none => "TypeError: Cannot read properties of undefined (reading 'status')"
  | some s => "HTTP error! Status: " ++ toString s ++ " - " ++ jsStr data ++ " - " ++ err

/-- String form of the JS error value caught by a failing attempt. -/
def errOf : FetchResult → String
  | .netError => "TypeError: fetch failed"
  | .reply _ none => "SyntaxError: unexpected end of JSON input"
  | .reply _ (some _) => "Error: Response not OK"

/-- Value (status) of part_000's `response` variable after the first `n`
fetches: the status of the most recent fetch whose promise resolved,
`none` while no fetch has resolved. -/
def lastStatus (env : Nat → FetchResult) : Nat → Option Nat
  | 0 => none
  | n + 1 =>
      match env n with
      | .reply s _ => some s
      | .netError => lastStatus env n

/-- Value of part_000's `data` variable after the first `n` fetches: the
most recently parsed body. -/
def lastData (env : Nat → FetchResult) : Nat → Option String
  | 0 => none
  | n + 1 =>
      match env n with
      | .reply _ (some b) => some b
      | _ => lastData env n

/-- Retry loop of the helpers.js `request` (lines 93..125).  `attempts` is
the source's counter, which indexes `env`; `left` is the remaining budget
`maxAttempts - attempts`, on which the recursion is structural (the source
tests `attempts < maxAttempts`, and increments `attempts` exactly once per
iteration, so the two counters move in lockstep).  On a failed attempt the
token index is rotated and, exactly when it wrapped back to 0, a 5000 ms
backoff is performed; on exhaustion the loop throws without notifying any
webhook. -/
def goA (env : Nat → FetchResult) (tokens : List String)
    (caller : List (String × String)) (apiKey accountEmail : Option String) :
    Nat → Nat → Option Nat → List Event × ReqResult
  | 0, _, _ => ([], .error "All tokens failed after maximum attempts")
  | left + 1, attempts, tokenIndex =>
      let currentToken := getTok tokens tokenIndex
      let sent := spreadMerge caller (authHeadersA currentToken apiKey accountEmail)
      match fetchSuccess (env attempts) with
      | some body => ([.attempt currentToken sent], .ok body)
      | none =>
          let newIndex := rotate tokens.length tokenIndex
          let rest := goA env tokens caller apiKey accountEmail left (attempts + 1) newIndex
          (.attempt currentToken sent ::
            ((if newIndex = some 0 then [Event.backoff] else []) ++ rest.1), rest.2)

/-- The helpers.js `request`, entered with `attempts = 0`,
`maxAttempts = 50` and `tokenIndex = 0`. -/
def requestA (env : Nat → FetchResult) (tokens : List String)
    (caller : List (String × String)) (apiKey accountEmail : Option String) :
    List Event × ReqResult :=
  goA env tokens caller apiKey accountEmail 50 0 (some 0)

/-- Retry loop of the part_000 `request` (lines 94..155).  Unlike variant
A it skips a falsy token slot without counting an attempt, waits 5000 ms
after every failed attempt that does not exhaust the budget, and on
exhaustion calls `notifyWebhook` before throwing.  The source loop has no
bound on skip iterations, so the model carries `fuel`, one unit per loop
iteration; `.diverge` marks a run that exceeds the fuel. -/
def goB (env : Nat → FetchResult) (tokens : List String)
    (caller : List (String × String)) :
    Nat → Nat → Option Nat → Option Nat → Option String → List Event × ReqResult
  | 0, _, _, _, _ => ([], .diverge)
  | fuel + 1, attempts, tokenIndex, resp, data =>
      if attempts < 50 then
        let currentToken := getTok tokens tokenIndex
        if jsFalsy currentToken then
          goB env tokens caller fuel attempts (rotate tokens.length tokenIndex) resp data
        else
          let sent := spreadMerge caller (authHeadersB currentToken)
          let failStep := fun (resp2 : Option Nat) (data2 : Option String) (err : String) =>
            let newIndex := rotate tokens.length tokenIndex
            if 50 ≤ attempts + 1 then
              ([Event.attempt currentToken sent, Event.notify (notifyMsg resp2)],
                ReqResult.error (exhaustMsg resp2 data2 err))
            else
              let rest := goB env tokens caller fuel (attempts + 1) newIndex resp2 data2
              (Event.attempt currentToken sent :: Event.backoff :: rest.1, rest.2)
          match env attempts with
          | .netError => failStep resp data (errOf .netError)
          | .reply status none => failStep (some status) data (errOf (.reply status none))
          | .reply status (some body) =>
              if statusOk status then ([Event.attempt currentToken sent], .ok body)
              else failStep (some status) (some body) (errOf (.reply status (some body)))
      else ([], .undef)

/-- The part_000 `request`, entered with `attempts = 0`, `tokenIndex = 0`
and `response`, `data` still undefined. -/
def requestB (env : Nat → FetchResult) (tokens : List String)
    (caller : List (String × String)) (fuel : Nat) : List Event × ReqResult :=
  goB env tokens caller fuel 0 (some 0) none none

/-- The JS whitespace class `\s` restricted to the characters this
development exercises (the full class also holds further Unicode space
separators). -/
def isJsWs (c : Char) : Bool :=
  c == ' ' || c == '\t' || c == '\n' || c == '\r' || c == '\x0b' || c == '\x0c' || c == ' '

/-- Length of the maximal leading whitespace run (the greedy `\s+`). -/
def wsCount : List Char → Nat
  | [] => 0
  | c :: cs => if isJsWs c then wsCount cs + 1 else 0

/-- The alternatives of the host-file regex
`(0\.0\.0\.0|127\.0\.0\.1|::1|::)`, in source order. -/
def hostMarkers : List (List Char) :=
  [String.toList "0.0.0.0", String.toList "127.0.0.1", String.toList "::1", String.toList "::"]

/-- Attempts the host-file regex at the head of `cs`: the first
alternative that matches and is followed by at least one whitespace
character wins, consuming the alternative plus the greedy whitespace run. -/
def markerMatchAt (cs : List Char) : Option Nat :=
  hostMarkers.findSome? (fun p =>
    if p.isPrefixOf cs then
      let w := wsCount (cs.drop p.length)
      if 0 < w then some (p.length + w) else none
    else none)

/-- `value.replace(/(0\.0\.0\.0|127\.0\.0\.1|::1|::)\s+/, "")`: remove the
leftmost match of the host-file regex, if any. -/
def dropHostMarker : List Char → List Char
  | [] => []
  | c :: cs =>
      match markerMatchAt (c :: cs) with
      | some n => List.drop n (c :: cs)
      | none => c :: dropHostMarker cs

/-- `s.replace(lit, "")` with a string literal pattern: remove the first
occurrence of `lit`, if any. -/
def replaceFirst (lit : List Char) : List Char → List Char
  | [] => []
  | c :: cs =>
      if lit.isPrefixOf (c :: cs) then (c :: cs).drop lit.length
      else c :: replaceFirst lit cs

/-- `normalizeDomain` (identical in helpers.js lines 145..156 and
part_000 lines 174..185): strip a leading host-file marker, then the
first occurrences of the literals `||`, `^$important`, `*.` and `^`, in
that order; in allow-list context additionally strip the first occurrence
of `@@||` from the already-normalized result. -/
def normalizeDomain (value : String) (isAllowlisting : Bool) : String :=
  let normalized :=
    replaceFirst (String.toList "^")
      (replaceFirst (String.toList "*.")
        (replaceFirst (String.toList "^$important")
          (replaceFirst (String.toList "||")
            (dropHostMarker (String.toList value)))))
  if isAllowlisting then String.mk (replaceFirst (String.toList "@@||") normalized)
  else String.mk normalized

/-- `response = await fetch(...)` updates `response` only when the promise
resolves. -/
def updStatus (resp : Option Nat) : FetchResult → Option Nat
  | .netError => resp
  | .reply s _ => some s

/-- `data = await response.json()` updates `data` only when parsing
succeeds. -/
def updData (data : Option String) : FetchResult → Option String
  | .reply _ (some b) => some b
  | _ => data

lemma lastStatus_succ (env : Nat → FetchResult) (n : Nat) :
    lastStatus env (n + 1) = updStatus (lastStatus env n) (env n) := by
  cases h : env n <;> simp [lastStatus, updStatus, h]

lemma lastData_succ (env : Nat → FetchResult) (n : Nat) :
    lastData env (n + 1) = updData (lastData env n) (env n) := by
  cases h : env n with
  | netError => simp [lastData, updData, h]
  | reply s ob => cases ob <;> simp [lastData, updData, h]

lemma attemptCount_nil : attemptCount [] = 0 := rfl

lemma attemptCount_cons (e : Event) (evs : List Event) :
    attemptCount (e :: evs) = (if isAttempt e then 1 else 0) + attemptCount evs := by
  cases h : isAttempt e <;> simp [attemptCount, List.filter_cons, h, Nat.add_comm]

lemma attemptCount_append (l1 l2 : List Event) :
    attemptCount (l1 ++ l2) = attemptCount l1 + attemptCount l2 := by
  simp [attemptCount, List.filter_append]

lemma backoffCount_nil : backoffCount [] = 0 := rfl

lemma backoffCount_cons (e : Event) (evs : List Event) :
    backoffCount (e :: evs) = (if isBackoff e then 1 else 0) + backoffCount evs := by
  cases h : isBackoff e <;> simp [backoffCount, List.filter_cons, h, Nat.add_comm]

lemma backoffCount_append (l1 l2 : List Event) :
    backoffCount (l1 ++ l2) = backoffCount l1 + backoffCount l2 := by
  simp [backoffCount, List.filter_append]

lemma notifyCount_nil : notifyCount [] = 0 := rfl

lemma notifyCount_cons (e : Event) (evs : List Event) :
    notifyCount (e :: evs) = (if isNotify e then 1 else 0) + notifyCount evs := by
  cases h : isNotify e <;> simp [notifyCount, List.filter_cons, h, Nat.add_comm]

lemma notifyCount_append (l1 l2 : List Event) :
    notifyCount (l1 ++ l2) = notifyCount l1 + notifyCount l2 := by
  simp [notifyCount, List.filter_append]

lemma attemptCount_attempt_cons (tok : Option String) (hdrs : List (String × String))
    (evs : List Event) :
    attemptCount (Event.attempt tok hdrs :: evs) = attemptCount evs + 1 := rfl

lemma attemptCount_backoff_cons (evs : List Event) :
    attemptCount (Event.backoff :: evs) = attemptCount evs := rfl

lemma attemptCount_notify_cons (msg : String) (evs : List Event) :
    attemptCount (Event.notify msg :: evs) = attemptCount evs := rfl

lemma backoffCount_attempt_cons (tok : Option String) (hdrs : List (String × String))
    (evs : List Event) :
    backoffCount (Event.attempt tok hdrs :: evs) = backoffCount evs := rfl

lemma backoffCount_backoff_cons (evs : List Event) :
    backoffCount (Event.backoff :: evs) = backoffCount evs + 1 := rfl

lemma backoffCount_notify_cons (msg : String) (evs : List Event) :
    backoffCount (Event.notify msg :: evs) = backoffCount evs := rfl

lemma notifyCount_attempt_cons (tok : Option String) (hdrs : List (String × String))
    (evs : List Event) :
    notifyCount (Event.attempt tok hdrs :: evs) = notifyCount evs := rfl

lemma notifyCount_backoff_cons (evs : List Event) :
    notifyCount (Event.backoff :: evs) = notifyCount evs := rfl

lemma notifyCount_notify_cons (msg : String) (evs : List Event) :
    notifyCount (Event.notify msg :: evs) = notifyCount evs + 1 := rfl

lemma fetchSuccess_some {f : FetchResult} {body : String} (h : fetchSuccess f = some body) :
    ∃ s, f = .reply s (some body) ∧ statusOk s = true := by
  cases f with
  | netError => simp [fetchSuccess] at h
  | reply s ob =>
      cases ob with
      | none => simp [fetchSuccess] at h
      | some b =>
          by_cases hs : statusOk s = true
          · refine ⟨s, ?_, hs⟩
            simp [fetchSuccess, hs] at h
            simp [h]
          · simp [fetchSuccess, Bool.of_not_eq_true hs] at h

section Unfold

variable (env : Nat → FetchResult) (tokens : List String)
variable (caller : List (String × String)) (apiKey accountEmail : Option String)

lemma goA_zero (attempts : Nat) (tokenIndex : Option Nat) :
    goA env tokens caller apiKey accountEmail 0 attempts tokenIndex =
      ([], .error "All tokens failed after maximum attempts") := rfl

lemma goA_eq_ok {attempts : Nat} {body : String}
    (h : fetchSuccess (env attempts) = some body) (left : Nat) (tokenIndex : Option Nat) :
    goA env tokens caller apiKey accountEmail (left + 1) attempts tokenIndex =
      ([Event.attempt (getTok tokens tokenIndex)
          (spreadMerge caller (authHeadersA (getTok tokens tokenIndex) apiKey accountEmail))],
        ReqResult.ok body) := by
  simp only [goA, h]

lemma goA_eq_fail {attempts : Nat}
    (h : fetchSuccess (env attempts) = none) (left : Nat) (tokenIndex : Option Nat) :
    goA env tokens caller apiKey accountEmail (left + 1) attempts tokenIndex =
      (Event.attempt (getTok tokens tokenIndex)
          (spreadMerge caller (authHeadersA (getTok tokens tokenIndex) apiKey accountEmail)) ::
        ((if rotate tokens.length tokenIndex = some 0 then [Event.backoff] else []) ++
          (goA env tokens caller apiKey accountEmail left (attempts + 1)
            (rotate tokens.length tokenIndex)).1),
        (goA env tokens caller apiKey accountEmail left (attempts + 1)
          (rotate tokens.length tokenIndex)).2) := by
  simp only [goA, h]

lemma goB_zero (attempts : Nat) (tokenIndex : Option Nat) (resp : Option Nat)
    (data : Option String) :
    goB env tokens caller 0 attempts tokenIndex resp data = ([], .diverge) := rfl

lemma goB_eq_out {attempts : Nat} (h : ¬ attempts < 50) (fuel : Nat)
    (tokenIndex : Option Nat) (resp : Option Nat) (data : Option String) :
    goB env tokens caller (fuel + 1) attempts tokenIndex resp data = ([], .undef) := by
  simp only [goB, if_neg h]

lemma goB_eq_skip {attempts : Nat} {tokenIndex : Option Nat} (h : attempts < 50)
    (hfal : jsFalsy (getTok tokens tokenIndex) = true) (fuel : Nat)
    (resp : Option Nat) (data : Option String) :
    goB env tokens caller (fuel + 1) attempts tokenIndex resp data =
      goB env tokens caller fuel attempts (rotate tokens.length tokenIndex) resp data := by
  simp only [goB, if_pos h, hfal]
  simp

lemma goB_eq_ok {attempts status : Nat} {tokenIndex : Option Nat} {body : String}
    (h : attempts < 50) (hfal : jsFalsy (getTok tokens tokenIndex) = false)
    (henv : env attempts = .reply status (some body)) (hok : statusOk status = true)
    (fuel : Nat) (resp : Option Nat) (data : Option String) :
    goB env tokens caller (fuel + 1) attempts tokenIndex resp data =
      ([Event.attempt (getTok tokens tokenIndex)
          (spreadMerge caller (authHeadersB (getTok tokens tokenIndex)))],
        ReqResult.ok body) := by
  simp only [goB, if_pos h, hfal, henv, hok, Bool.false_eq_true, if_false, if_true]

lemma goB_eq_fail {attempts : Nat} {tokenIndex : Option Nat}
    (h : attempts < 50) (hfal : jsFalsy (getTok tokens tokenIndex) = false)
    (hf : fetchSuccess (env attempts) = none) (fuel : Nat)
    (resp : Option Nat) (data : Option String) :
    goB env tokens caller (fuel + 1) attempts tokenIndex resp data =
      (if 50 ≤ attempts + 1 then
        ([Event.attempt (getTok tokens tokenIndex)
            (spreadMerge caller (authHeadersB (getTok tokens tokenIndex))),
          Event.notify (notifyMsg (updStatus resp (env attempts)))],
          ReqResult.error (exhaustMsg (updStatus resp (env attempts))
            (updData data (env attempts)) (errOf (env attempts))))
      else
        (Event.attempt (getTok tokens tokenIndex)
            (spreadMerge caller (authHeadersB (getTok tokens tokenIndex))) ::
          Event.backoff ::
          (goB env tokens caller fuel (attempts + 1) (rotate tokens.length tokenIndex)
            (updStatus resp (env attempts)) (updData data (env attempts))).1,
          (goB env tokens caller fuel (attempts + 1) (rotate tokens.length tokenIndex)
            (updStatus resp (env attempts)) (updData data (env attempts))).2)) := by
  cases henv : env attempts with
  | netError => simp only [goB, if_pos h, hfal, henv, Bool.false_eq_true, if_false,
      updStatus, updData, errOf]
  | reply status ob =>
      cases ob with
      | none => simp only [goB, if_pos h, hfal, henv, Bool.false_eq_true, if_false,
          updStatus, updData, errOf]
      | some b =>
          have hs : statusOk status = false := by
            by_cases hs1 : statusOk status = true
            · rw [henv] at hf; simp [fetchSuccess, hs1] at hf
            · exact Bool.of_not_eq_true hs1
          simp only [goB, if_pos h, hfal, henv, hs, Bool.false_eq_true, if_false,
            updStatus, updData, errOf]

end Unfold

lemma jsFalsy_getTok_nil (idx : Option Nat) : jsFalsy (getTok [] idx) = true := by
  cases idx with
  | none => rfl
  | some i => simp [getTok, jsFalsy]

lemma jsFalsy_getTok_lt {tokens : List String} (htok : ∀ t ∈ tokens, t ≠ "")
    {i : Nat} (hi : i < tokens.length) : jsFalsy (getTok tokens (some i)) = false := by
  have hget : tokens.get? i = some (tokens.get ⟨i, hi⟩) := List.get?_eq_get hi
  have hmem : tokens.get ⟨i, hi⟩ ∈ tokens := List.get_mem tokens i hi
  have hne : tokens.get ⟨i, hi⟩ ≠ "" := htok _ hmem
  rw [show getTok tokens (some i) = tokens.get? i from rfl, hget]
  simpa [jsFalsy] using hne

lemma rotate_some {len i : Nat} (hlen : 0 < len) :
    rotate len (some i) = some ((i + 1) % len) := by
  simp [rotate, Nat.pos_iff_ne_zero.mp hlen]

section LoopA

variable (env : Nat → FetchResult) (tokens : List String)
variable (caller : List (String × String)) (apiKey accountEmail : Option String)

lemma notifyCount_wrap (c : Prop) [Decidable c] :
    notifyCount (if c then [Event.backoff] else []) = 0 := by split <;> rfl

lemma attemptCount_wrap (c : Prop) [Decidable c] :
    attemptCount (if c then [Event.backoff] else []) = 0 := by split <;> rfl

lemma goA_notify_zero :
    ∀ left attempts tokenIndex,
      notifyCount (goA env tokens caller apiKey accountEmail left attempts tokenIndex).1 = 0 := by
  intro left
  induction left with
  | zero => intro attempts tokenIndex; rfl
  | succ n ih =>
      intro attempts tokenIndex
      cases hm : fetchSuccess (env attempts) with
      | some body =>
          rw [goA_eq_ok env tokens caller apiKey accountEmail hm]
          rfl
      | none =>
          rw [goA_eq_fail env tokens caller apiKey accountEmail hm]
          rw [notifyCount_attempt_cons, notifyCount_append, ih, notifyCount_wrap]

lemma goA_attempt_le :
    ∀ left attempts tokenIndex,
      attemptCount (goA env tokens caller apiKey accountEmail left attempts tokenIndex).1 ≤ left := by
  intro left
  induction left with
  | zero => intro attempts tokenIndex; exact Nat.le_refl 0
  | succ n ih =>
      intro attempts tokenIndex
      cases hm : fetchSuccess (env attempts) with
      | some body =>
          rw [goA_eq_ok env tokens caller apiKey accountEmail hm]
          simp [attemptCount, List.filter_cons, isAttempt]
      | none =>
          rw [goA_eq_fail env tokens caller apiKey accountEmail hm]
          rw [attemptCount_attempt_cons, attemptCount_append, attemptCount_wrap]
          have h1 := ih (attempts + 1) (rotate tokens.length tokenIndex)
          omega

lemma goA_total :
    ∀ left attempts tokenIndex,
      ((goA env tokens caller apiKey accountEmail left attempts tokenIndex).2).isOk = true ∨
        ((goA env tokens caller apiKey accountEmail left attempts tokenIndex).2).isError = true := by
  intro left
  induction left with
  | zero => intro attempts tokenIndex; right; rfl
  | succ n ih =>
      intro attempts tokenIndex
      cases hm : fetchSuccess (env attempts) with
      | some body =>
          rw [goA_eq_ok env tokens caller apiKey accountEmail hm]
          left; rfl
      | none =>
          rw [goA_eq_fail env tokens caller apiKey accountEmail hm]
          exact ih (attempts + 1) (rotate tokens.length tokenIndex)

lemma goA_ok_pos :
    ∀ left attempts tokenIndex,
      ((goA env tokens caller apiKey accountEmail left attempts tokenIndex).2).isOk = true →
        1 ≤ attemptCount (goA env tokens caller apiKey accountEmail left attempts tokenIndex).1 := by
  intro left
  induction left with
  | zero => intro attempts tokenIndex h; exact absurd h (by simp [goA_zero, ReqResult.isOk])
  | succ n ih =>
      intro attempts tokenIndex h
      cases hm : fetchSuccess (env attempts) with
      | some body =>
          rw [goA_eq_ok env tokens caller apiKey accountEmail hm]
          simp [attemptCount, List.filter_cons, isAttempt]
      | none =>
          rw [goA_eq_fail env tokens caller apiKey accountEmail hm]
          rw [attemptCount_attempt_cons]
          omega

lemma goA_fail_all :
    ∀ left attempts tokenIndex,
      (∀ m, attempts ≤ m → m < attempts + left → fetchSuccess (env m) = none) →
      (goA env tokens caller apiKey accountEmail left attempts tokenIndex).2 =
          ReqResult.error "All tokens failed after maximum attempts" ∧
        attemptCount (goA env tokens caller apiKey accountEmail left attempts tokenIndex).1 = left := by
  intro left
  induction left with
  | zero => intro attempts tokenIndex hf; exact ⟨rfl, rfl⟩
  | succ n ih =>
      intro attempts tokenIndex hf
      have h0 : fetchSuccess (env attempts) = none := hf attempts (Nat.le_refl _) (by omega)
      have hrest := ih (attempts + 1) (rotate tokens.length tokenIndex)
        (fun m hm1 hm2 => hf m (by omega) (by omega))
      rw [goA_eq_fail env tokens caller apiKey accountEmail h0]
      refine ⟨hrest.1, ?_⟩
      rw [attemptCount_attempt_cons, attemptCount_append, attemptCount_wrap, hrest.2]
      omega

lemma goA_success :
    ∀ left attempts tokenIndex (j : Nat) (body : String),
      attempts ≤ j → j < attempts + left →
      (∀ m, attempts ≤ m → m < j → fetchSuccess (env m) = none) →
      fetchSuccess (env j) = some body →
      (goA env tokens caller apiKey accountEmail left attempts tokenIndex).2 =
          ReqResult.ok body ∧
        attemptCount (goA env tokens caller apiKey accountEmail left attempts tokenIndex).1 =
          j + 1 - attempts ∧
        ∃ pre tok hdrs,
          (goA env tokens caller apiKey accountEmail left attempts tokenIndex).1 =
            pre ++ [Event.attempt tok hdrs] := by
  intro left
  induction left with
  | zero => intro attempts tokenIndex j body h1 h2 hfail hsucc; omega
  | succ n ih =>
      intro attempts tokenIndex j body h1 h2 hfail hsucc
      by_cases hj : attempts = j
      · subst hj
        rw [goA_eq_ok env tokens caller apiKey accountEmail hsucc]
        refine ⟨rfl, ?_, ⟨[], _, _, rfl⟩⟩
        rw [attemptCount_attempt_cons, attemptCount_nil]
        omega
      · have h0 : fetchSuccess (env attempts) = none :=
          hfail attempts (Nat.le_refl _) (by omega)
        have hrest := ih (attempts + 1) (rotate tokens.length tokenIndex) j body
          (by omega) (by omega) (fun m hm1 hm2 => hfail m (by omega) hm2) hsucc
        rw [goA_eq_fail env tokens caller apiKey accountEmail h0]
        refine ⟨hrest.1, ?_, ?_⟩
        · rw [attemptCount_attempt_cons, attemptCount_append, attemptCount_wrap, hrest.2.1]
          omega
        · obtain ⟨pre, tok, hdrs, hpre⟩ := hrest.2.2
          refine ⟨Event.attempt (getTok tokens tokenIndex)
              (spreadMerge caller (authHeadersA (getTok tokens tokenIndex) apiKey accountEmail)) ::
            ((if rotate tokens.length tokenIndex = some 0 then [Event.backoff] else []) ++ pre),
            tok, hdrs, ?_⟩
          rw [hpre]
          simp

lemma goA_headers :
    ∀ left attempts tokenIndex (tok : Option String) (hdrs : List (String × String)),
      Event.attempt tok hdrs ∈
          (goA env tokens caller apiKey accountEmail left attempts tokenIndex).1 →
        hdrs = spreadMerge caller (authHeadersA tok apiKey accountEmail) := by
  intro left
  induction left with
  | zero => intro attempts tokenIndex tok hdrs h; exact absurd h (by simp [goA_zero])
  | succ n ih =>
      intro attempts tokenIndex tok hdrs h
      cases hm : fetchSuccess (env attempts) with
      | some body =>
          rw [goA_eq_ok env tokens caller apiKey accountEmail hm] at h
          rw [List.mem_singleton] at h
          injection h with h1 h2
          rw [h2, h1]
      | none =>
          rw [goA_eq_fail env tokens caller apiKey accountEmail hm] at h
          rw [List.mem_cons] at h
          rcases h with heq | h
          · injection heq with h1 h2
            rw [h2, h1]
          · rw [List.mem_append] at h
            rcases h with h | h
            · split at h <;> simp at h
            · exact ih (attempts + 1) (rotate tokens.length tokenIndex) tok hdrs h

lemma wrapDiv {N i g : Nat} (hiN : i < N) :
    (if (i + 1) % N = 0 then 1 else 0) + ((i + 1) % N + g) / N = (i + (g + 1)) / N := by
  rcases Nat.lt_or_ge (i + 1) N with h | h
  · have h1 : (i + 1) % N = i + 1 := Nat.mod_eq_of_lt h
    rw [h1, if_neg (by omega)]
    have h3 : i + 1 + g = i + (g + 1) := by omega
    rw [Nat.zero_add, h3]
  · have hN : i + 1 = N := by omega
    have hpos : 0 < N := by omega
    rw [hN, Nat.mod_self, if_pos rfl, Nat.zero_add]
    have h3 : i + (g + 1) = g + N := by omega
    rw [h3, Nat.add_div_right g hpos]
    omega

lemma goA_backoff (hN : 0 < tokens.length) :
    ∀ left attempts (i : Nat), i < tokens.length →
      backoffCount (goA env tokens caller apiKey accountEmail left attempts (some i)).1 =
        (i + (attemptCount (goA env tokens caller apiKey accountEmail left attempts (some i)).1 -
          (if ((goA env tokens caller apiKey accountEmail left attempts (some i)).2).isOk = true
            then 1 else 0))) / tokens.length := by
  intro left
  induction left with
  | zero =>
      intro attempts i hi
      rw [goA_zero]
      simp [backoffCount_nil, attemptCount_nil, ReqResult.isOk]
      exact (Nat.div_eq_of_lt hi).symm
  | succ n ih =>
      intro attempts i hi
      cases hm : fetchSuccess (env attempts) with
      | some body =>
          rw [goA_eq_ok env tokens caller apiKey accountEmail hm]
          simp [backoffCount, attemptCount, List.filter_cons, isBackoff, isAttempt,
            ReqResult.isOk]
          exact (Nat.div_eq_of_lt hi).symm
      | none =>
          rw [goA_eq_fail env tokens caller apiKey accountEmail hm]
          rw [rotate_some hN]
          dsimp only
          have hi2 : (i + 1) % tokens.length < tokens.length := Nat.mod_lt _ hN
          have hrec := ih (attempts + 1) ((i + 1) % tokens.length) hi2
          rw [backoffCount_attempt_cons, backoffCount_append, attemptCount_attempt_cons,
            attemptCount_append, attemptCount_wrap]
          have hok : (if ((goA env tokens caller apiKey accountEmail n (attempts + 1)
              (some ((i + 1) % tokens.length))).2).isOk = true then 1 else 0) ≤
              attemptCount (goA env tokens caller apiKey accountEmail n (attempts + 1)
                (some ((i + 1) % tokens.length))).1 := by
            by_cases hko : ((goA env tokens caller apiKey accountEmail n (attempts + 1)
                (some ((i + 1) % tokens.length))).2).isOk = true
            · rw [if_pos hko]
              exact goA_ok_pos env tokens caller apiKey accountEmail n (attempts + 1)
                (some ((i + 1) % tokens.length)) hko
            · rw [if_neg hko]; exact Nat.zero_le _
          have hwrapA : backoffCount (if some ((i + 1) % tokens.length) = some 0
              then [Event.backoff] else []) =
              (if (i + 1) % tokens.length = 0 then 1 else 0) := by
            by_cases hw : (i + 1) % tokens.length = 0
            · simp [hw, backoffCount, List.filter_cons, isBackoff]
            · simp [hw, backoffCount]
          rw [hwrapA, hrec]
          have hsub : i + (0 + attemptCount (goA env tokens caller apiKey accountEmail n
              (attempts + 1) (some ((i + 1) % tokens.length))).1 + 1 -
              (if ((goA env tokens caller apiKey accountEmail n (attempts + 1)
                (some ((i + 1) % tokens.length))).2).isOk = true then 1 else 0)) =
              i + ((attemptCount (goA env tokens caller apiKey accountEmail n (attempts + 1)
                (some ((i + 1) % tokens.length))).1 -
                (if ((goA env tokens caller apiKey accountEmail n (attempts + 1)
                  (some ((i + 1) % tokens.length))).2).isOk = true then 1 else 0)) + 1) := by
            omega
          rw [hsub]
          exact wrapDiv hi

end LoopA

section LoopB

variable (env : Nat → FetchResult) (tokens : List String)
variable (caller : List (String × String))

lemma goB_empty :
    ∀ fuel attempts tokenIndex resp data, attempts < 50 →
      goB env [] caller fuel attempts tokenIndex resp data = ([], .diverge) := by
  intro fuel
  induction fuel with
  | zero => intro attempts tokenIndex resp data h; rfl
  | succ n ih =>
      intro attempts tokenIndex resp data h
      rw [goB_eq_skip env [] caller h (jsFalsy_getTok_nil tokenIndex) n resp data]
      exact ih attempts _ resp data h

lemma goB_attempt_le :
    ∀ fuel attempts tokenIndex resp data,
      attemptCount (goB env tokens caller fuel attempts tokenIndex resp data).1 ≤
        50 - attempts := by
  intro fuel
  induction fuel with
  | zero => intro attempts tokenIndex resp data; exact Nat.zero_le _
  | succ n ih =>
      intro attempts tokenIndex resp data
      by_cases h50 : attempts < 50
      · by_cases hfal : jsFalsy (getTok tokens tokenIndex) = true
        · rw [goB_eq_skip env tokens caller h50 hfal n resp data]
          exact ih attempts _ resp data
        · have hfal2 : jsFalsy (getTok tokens tokenIndex) = false :=
            Bool.of_not_eq_true hfal
          cases hm : fetchSuccess (env attempts) with
          | some body =>
              obtain ⟨s, henv, hok⟩ := fetchSuccess_some hm
              rw [goB_eq_ok env tokens caller h50 hfal2 henv hok n resp data]
              rw [attemptCount_attempt_cons, attemptCount_nil]
              omega
          | none =>
              rw [goB_eq_fail env tokens caller h50 hfal2 hm n resp data]
              by_cases hterm : 50 ≤ attempts + 1
              · rw [if_pos hterm]
                dsimp only
                rw [attemptCount_attempt_cons, attemptCount_notify_cons, attemptCount_nil]
                omega
              · rw [if_neg hterm]
                dsimp only
                rw [attemptCount_attempt_cons, attemptCount_backoff_cons]
                have := ih (attempts + 1) (rotate tokens.length tokenIndex)
                  (updStatus resp (env attempts)) (updData data (env attempts))
                omega
      · rw [goB_eq_out env tokens caller h50 n tokenIndex resp data]
        exact Nat.zero_le _

lemma goB_total (htok : ∀ t ∈ tokens, t ≠ "") :
    ∀ fuel attempts (i : Nat) resp data, i < tokens.length → attempts < 50 →
      50 - attempts ≤ fuel →
      (((goB env tokens caller fuel attempts (some i) resp data).2).isOk = true ∨
        ((goB env tokens caller fuel attempts (some i) resp data).2).isError = true) := by
  intro fuel
  induction fuel with
  | zero => intro attempts i resp data hi h50 hfuel; omega
  | succ n ih =>
      intro attempts i resp data hi h50 hfuel
      have hlen : 0 < tokens.length := by omega
      have hfal : jsFalsy (getTok tokens (some i)) = false := jsFalsy_getTok_lt htok hi
      cases hm : fetchSuccess (env attempts) with
      | some body =>
          obtain ⟨s, henv, hok⟩ := fetchSuccess_some hm
          rw [goB_eq_ok env tokens caller h50 hfal henv hok n resp data]
          left; rfl
      | none =>
          rw [goB_eq_fail env tokens caller h50 hfal hm n resp data]
          by_cases hterm : 50 ≤ attempts + 1
          · rw [if_pos hterm]; right; rfl
          · rw [if_neg hterm]
            dsimp only
            rw [rotate_some hlen]
            exact ih (attempts + 1) ((i + 1) % tokens.length)
              (updStatus resp (env attempts)) (updData data (env attempts))
              (Nat.mod_lt _ hlen) (by omega) (by omega)

lemma goB_success (htok : ∀ t ∈ tokens, t ≠ "") {j : Nat} {body : String}
    (hj50 : j < 50) (hsucc : fetchSuccess (env j) = some body) :
    ∀ fuel attempts (i : Nat) resp data, i < tokens.length → attempts ≤ j →
      50 - attempts ≤ fuel →
      (∀ m, attempts ≤ m → m < j → fetchSuccess (env m) = none) →
      (goB env tokens caller fuel attempts (some i) resp data).2 = ReqResult.ok body ∧
        attemptCount (goB env tokens caller fuel attempts (some i) resp data).1 =
          j + 1 - attempts ∧
        ∃ pre tok hdrs, (goB env tokens caller fuel attempts (some i) resp data).1 =
          pre ++ [Event.attempt tok hdrs] := by
  intro fuel
  induction fuel with
  | zero => intro attempts i resp data hi hle hfuel hfail; omega
  | succ n ih =>
      intro attempts i resp data hi hle hfuel hfail
      have hlen : 0 < tokens.length := by omega
      have h50 : attempts < 50 := by omega
      have hfal : jsFalsy (getTok tokens (some i)) = false := jsFalsy_getTok_lt htok hi
      by_cases hj : attempts = j
      · subst hj
        obtain ⟨s, henv, hok⟩ := fetchSuccess_some hsucc
        rw [goB_eq_ok env tokens caller h50 hfal henv hok n resp data]
        refine ⟨rfl, ?_, ⟨[], _, _, rfl⟩⟩
        rw [attemptCount_attempt_cons, attemptCount_nil]
        omega
      · have h0 : fetchSuccess (env attempts) = none :=
          hfail attempts (Nat.le_refl _) (by omega)
        rw [goB_eq_fail env tokens caller h50 hfal h0 n resp data,
          if_neg (by omega : ¬ 50 ≤ attempts + 1)]
        dsimp only
        rw [rotate_some hlen]
        have hrest := ih (attempts + 1) ((i + 1) % tokens.length)
          (updStatus resp (env attempts)) (updData data (env attempts))
          (Nat.mod_lt _ hlen) (by omega) (by omega)
          (fun m h1 h2 => hfail m (by omega) h2)
        refine ⟨hrest.1, ?_, ?_⟩
        · rw [attemptCount_attempt_cons, attemptCount_backoff_cons, hrest.2.1]
          omega
        · obtain ⟨pre, tok, hdrs, hpre⟩ := hrest.2.2
          refine ⟨Event.attempt (getTok tokens (some i))
              (spreadMerge caller (authHeadersB (getTok tokens (some i)))) ::
            Event.backoff :: pre, tok, hdrs, ?_⟩
          rw [hpre]
          simp

lemma goB_exhaust (htok : ∀ t ∈ tokens, t ≠ "")
    (hfail : ∀ m, m < 50 → fetchSuccess (env m) = none) :
    ∀ fuel attempts (i : Nat), i < tokens.length → attempts < 50 →
      50 - attempts ≤ fuel →
      (goB env tokens caller fuel attempts (some i)
            (lastStatus env attempts) (lastData env attempts)).2 =
          ReqResult.error (exhaustMsg (lastStatus env 50) (lastData env 50)
            (errOf (env 49))) ∧
        (goB env tokens caller fuel attempts (some i)
            (lastStatus env attempts) (lastData env attempts)).1.getLast? =
          some (Event.notify (notifyMsg (lastStatus env 50))) ∧
        notifyCount (goB env tokens caller fuel attempts (some i)
            (lastStatus env attempts) (lastData env attempts)).1 = 1 := by
  intro fuel
  induction fuel with
  | zero => intro attempts i hi h50 hfuel; omega
  | succ n ih =>
      intro attempts i hi h50 hfuel
      have hlen : 0 < tokens.length := by omega
      have hfal : jsFalsy (getTok tokens (some i)) = false := jsFalsy_getTok_lt htok hi
      have h0 : fetchSuccess (env attempts) = none := hfail attempts h50
      rw [goB_eq_fail env tokens caller h50 hfal h0 n
        (lastStatus env attempts) (lastData env attempts)]
      have hs2 : updStatus (lastStatus env attempts) (env attempts) =
          lastStatus env (attempts + 1) := (lastStatus_succ env attempts).symm
      have hd2 : updData (lastData env attempts) (env attempts) =
          lastData env (attempts + 1) := (lastData_succ env attempts).symm
      by_cases hterm : 50 ≤ attempts + 1
      · have h49 : attempts = 49 := by omega
        subst h49
        rw [if_pos hterm]
        dsimp only
        rw [hs2, hd2]
        refine ⟨rfl, rfl, rfl⟩
      · rw [if_neg hterm]
        dsimp only
        rw [rotate_some hlen, hs2, hd2]
        have hrest := ih (attempts + 1) ((i + 1) % tokens.length)
          (Nat.mod_lt _ hlen) (by omega) (by omega)
        refine ⟨hrest.1, ?_, ?_⟩
        · have hne : (goB env tokens caller n (attempts + 1) (some ((i + 1) % tokens.length))
              (lastStatus env (attempts + 1)) (lastData env (attempts + 1))).1 ≠ [] := by
            intro hnil
            rw [hnil] at hrest
            simp at hrest
          obtain ⟨c, t, hct⟩ := List.exists_cons_of_ne_nil hne
          rw [hct, List.getLast?_cons_cons, List.getLast?_cons_cons, ← hct]
          exact hrest.2.1
        · rw [notifyCount_attempt_cons, notifyCount_backoff_cons]
          exact hrest.2.2

lemma goB_headers :
    ∀ fuel attempts tokenIndex resp data (tok : Option String)
      (hdrs : List (String × String)),
      Event.attempt tok hdrs ∈ (goB env tokens caller fuel attempts tokenIndex resp data).1 →
        hdrs = spreadMerge caller (authHeadersB tok) := by
  intro fuel
  induction fuel with
  | zero => intro attempts tokenIndex resp data tok hdrs h; exact absurd h (by simp [goB_zero])
  | succ n ih =>
      intro attempts tokenIndex resp data tok hdrs h
      by_cases h50 : attempts < 50
      · by_cases hfal : jsFalsy (getTok tokens tokenIndex) = true
        · rw [goB_eq_skip env tokens caller h50 hfal n resp data] at h
          exact ih attempts _ resp data tok hdrs h
        · have hfal2 : jsFalsy (getTok tokens tokenIndex) = false :=
            Bool.of_not_eq_true hfal
          cases hm : fetchSuccess (env attempts) with
          | some body =>
              obtain ⟨s, henv, hok⟩ := fetchSuccess_some hm
              rw [goB_eq_ok env tokens caller h50 hfal2 henv hok n resp data] at h
              rw [List.mem_singleton] at h
              injection h with h1 h2
              rw [h2, h1]
          | none =>
              rw [goB_eq_fail env tokens caller h50 hfal2 hm n resp data] at h
              by_cases hterm : 50 ≤ attempts + 1
              · rw [if_pos hterm] at h
                dsimp only at h
                rw [List.mem_cons] at h
                rcases h with heq | h
                · injection heq with h1 h2
                  rw [h2, h1]
                · rw [List.mem_singleton] at h
                  exact absurd h (by simp)
              · rw [if_neg hterm] at h
                dsimp only at h
                rw [List.mem_cons] at h
                rcases h with heq | h
                · injection heq with h1 h2
                  rw [h2, h1]
                · rw [List.mem_cons] at h
                  rcases h with heq | h
                  · exact absurd heq (by simp)
                  · exact ih (attempts + 1) _ _ _ tok hdrs h
      · rw [goB_eq_out env tokens caller h50 n tokenIndex resp data] at h
        exact absurd h (by simp)

end LoopB

lemma beq_false_of_ne {a b : String} (h : a ≠ b) : (a == b) = false :=
  beq_eq_false_iff_ne.mpr h

lemma lookup_append (k : String) (l1 l2 : List (String × String)) :
    List.lookup k (l1 ++ l2) =
      match List.lookup k l1 with
      | some v => some v
      | none => List.lookup k l2 := by
  induction l1 with
  | nil => rfl
  | cons p rest ih =>
      rcases p with ⟨k1, v1⟩
      by_cases hk : (k == k1) = true
      · simp [List.lookup, hk]
      · rw [show ((k1, v1) :: rest) ++ l2 = (k1, v1) :: (rest ++ l2) from rfl]
        simp only [List.lookup, Bool.of_not_eq_true hk]
        exact ih

lemma lookup_spread_hit {auth caller : List (String × String)} {k v : String}
    (h : List.lookup k auth = some v) :
    List.lookup k (spreadMerge caller auth) = some v := by
  rw [show spreadMerge caller auth = auth ++ caller from rfl, lookup_append, h]

lemma lookup_spread_miss {auth caller : List (String × String)} {k : String}
    (h : List.lookup k auth = none) :
    List.lookup k (spreadMerge caller auth) = List.lookup k caller := by
  rw [show spreadMerge caller auth = auth ++ caller from rfl, lookup_append, h]

lemma lookup_authA_other {tok apiKey accountEmail : Option String} {key : String}
    (h1 : key ≠ "Authorization") (h2 : key ≠ "Content-Type")
    (h3 : key ≠ "X-Auth-Email") (h4 : key ≠ "X-Auth-Key") :
    List.lookup key (authHeadersA tok apiKey accountEmail) = none := by
  by_cases h : tok = apiKey <;>
    simp [authHeadersA, h, List.lookup, beq_false_of_ne h1, beq_false_of_ne h2,
      beq_false_of_ne h3, beq_false_of_ne h4]

lemma lookup_authA_other_of_ne {tok apiKey accountEmail : Option String} {key : String}
    (hak : tok ≠ apiKey) (h1 : key ≠ "Authorization") (h2 : key ≠ "Content-Type") :
    List.lookup key (authHeadersA tok apiKey accountEmail) = none := by
  simp [authHeadersA, hak, List.lookup, beq_false_of_ne h1, beq_false_of_ne h2]

lemma lookup_authB_other {tok : Option String} {key : String}
    (h1 : key ≠ "Authorization") (h2 : key ≠ "Content-Type") :
    List.lookup key (authHeadersB tok) = none := by
  simp [authHeadersB, List.lookup, beq_false_of_ne h1, beq_false_of_ne h2]

/-- Environment in which every fetch fails at network level. -/
def envAllFail : Nat → FetchResult := fun _ => FetchResult.netError

/-- Environment in which the first fetch fails at network level and every
later fetch succeeds with body "ok". -/
def envOkAfterOne : Nat → FetchResult := fun m =>
  if m = 0 then FetchResult.netError else FetchResult.reply 200 (some "ok")

/-- Environment in which every fetch succeeds with body "data". -/
def envAllOk : Nat → FetchResult := fun _ => FetchResult.reply 200 (some "data")

/-- C7: for every credential set of size N ≥ 1 and every starting token
index i < N, applying the rotation step `(index + 1) mod N` of the request
loops exactly N times maps index i back to i: the rotation is a total
cyclic permutation of the index set. -/
theorem c7_rotation_cycle (N i : Nat) (hN : 1 ≤ N) (hi : i < N) :
    (rotate N)^[N] (some i) = some i := by
  have key : ∀ k j : Nat, j < N → (rotate N)^[k] (some j) = some ((j + k) % N) := by
    intro k
    induction k with
    | zero => intro j hj; simp [Nat.mod_eq_of_lt hj]
    | succ m ihm =>
        intro j hj
        rw [Function.iterate_succ_apply, rotate_some (by omega),
          ihm ((j + 1) % N) (Nat.mod_lt _ (by omega))]
        congr 1
        have e1 := Nat.add_mod (j + 1) m N
        have e2 := Nat.add_mod ((j + 1) % N) m N
        have e3 : (j + 1) % N % N = (j + 1) % N := Nat.mod_mod_of_dvd _ (dvd_refl N)
        rw [e2, e3, ← e1]
        congr 1
        omega
  rw [key N i hi, Nat.add_mod_right, Nat.mod_eq_of_lt hi]

/-- Witness for C7 at N = 3, i = 1. -/
theorem c7_witness : 1 ≤ 3 ∧ 1 < 3 ∧ (rotate 3)^[3] (some 1) = some 1 :=
  ⟨by decide, by decide, c7_rotation_cycle 3 1 (by decide) (by decide)⟩

/-- C10: in the helpers.js variant the built header set contains
X-Auth-Email (bound to the configured account email) and X-Auth-Key
(bound to the configured API key) exactly when the current token equals
the configured API_KEY value, and contains neither key for any other
token; the part_000 variant never adds these headers. -/
theorem c10_xauth_headers (tok apiKey accountEmail : Option String) :
    (List.lookup "X-Auth-Email" (authHeadersA tok apiKey accountEmail) =
        if tok = apiKey then some (jsStr accountEmail) else none) ∧
      (List.lookup "X-Auth-Key" (authHeadersA tok apiKey accountEmail) =
        if tok = apiKey then some (jsStr apiKey) else none) ∧
      List.lookup "X-Auth-Email" (authHeadersB tok) = none ∧
      List.lookup "X-Auth-Key" (authHeadersB tok) = none := by
  by_cases h : tok = apiKey <;>
    simp [authHeadersA, authHeadersB, h, List.lookup]

/-- C2 (code bug): the spec's test demands
`normalizeDomain("@@||example.com", true) === "example.com"`, but the code
removes the first occurrence of the literal `||` before the allow-list
step runs, leaving "@@example.com" in which `@@||` no longer occurs, so
the final `@@||` removal does nothing: the call returns "@@example.com". -/
theorem c2_normalize_allowlist_eval :
    normalizeDomain "@@||example.com" true = "@@example.com" := by decide

/-- C4 (code bug): with an empty credential set the claim requires no HTTP
attempt and an immediate failure; instead the helpers.js variant performs
all 50 attempts (with an undefined bearer token) before failing, and the
part_000 variant performs no attempt but never terminates - at every fuel
bound it is still looping. -/
theorem c4_empty_credentials_eval :
    attemptCount (requestA envAllFail [] [] none none).1 = 50 ∧
      (requestA envAllFail [] [] none none).2 =
        ReqResult.error "All tokens failed after maximum attempts" ∧
      (∀ fuel, requestB envAllFail [] [] fuel = ([], ReqResult.diverge)) := by
  refine ⟨?_, ?_, ?_⟩
  · exact (goA_fail_all envAllFail [] [] none none 50 0 (some 0) (fun m h1 h2 => rfl)).2
  · exact (goA_fail_all envAllFail [] [] none none 50 0 (some 0) (fun m h1 h2 => rfl)).1
  · intro fuel
    exact goB_empty envAllFail [] fuel 0 (some 0) none none (by omega)

/-- C5 counterexample: the claim asserts every execution yields one
success value or one terminal failure, but on an empty credential set the
part_000 variant yields neither at any fuel bound: it loops forever. -/
theorem c5_counterexample :
    ¬ ∃ fuel, ((requestB envAllFail [] [] fuel).2).isOk = true ∨
      ((requestB envAllFail [] [] fuel).2).isError = true := by
  rintro ⟨fuel, h⟩
  have hdiv : requestB envAllFail [] [] fuel = ([], ReqResult.diverge) :=
    goB_empty envAllFail [] fuel 0 (some 0) none none (by omega)
  rw [hdiv] at h
  rcases h with h | h <;> simp [ReqResult.isOk, ReqResult.isError] at h

/-- C5 amended: for every environment both variants perform at most 50
HTTP attempts, whatever the credential list; and for a nonempty credential
list free of falsy entries every run of either variant ends in exactly one
outcome, a success value or a raised error.  (On an empty list the
part_000 variant diverges - the counterexample - which is the only
exception.) -/
theorem c5_bounded_attempts_total (env : Nat → FetchResult) (tokens : List String)
    (caller : List (String × String)) (apiKey accountEmail : Option String) (fuel : Nat)
    (hne : tokens ≠ []) (htok : ∀ t ∈ tokens, t ≠ "") (hfuel : 50 ≤ fuel) :
    (∀ tokens2 : List String, ∀ fuel2 : Nat,
        attemptCount (requestA env tokens2 caller apiKey accountEmail).1 ≤ 50 ∧
          attemptCount (requestB env tokens2 caller fuel2).1 ≤ 50) ∧
      (((requestA env tokens caller apiKey accountEmail).2).isOk = true ∨
        ((requestA env tokens caller apiKey accountEmail).2).isError = true) ∧
      (((requestB env tokens caller fuel).2).isOk = true ∨
        ((requestB env tokens caller fuel).2).isError = true) := by
  refine ⟨?_, ?_, ?_⟩
  · intro tokens2 fuel2
    constructor
    · exact goA_attempt_le env tokens2 caller apiKey accountEmail 50 0 (some 0)
    · have h : attemptCount (requestB env tokens2 caller fuel2).1 ≤ 50 - 0 :=
        goB_attempt_le env tokens2 caller fuel2 0 (some 0) none none
      omega
  · exact goA_total env tokens caller apiKey accountEmail 50 0 (some 0)
  · have hlen : 0 < tokens.length := List.length_pos.mpr hne
    exact goB_total env tokens caller htok fuel 0 0 none none hlen (by omega) (by omega)

/-- Witness for the amended C5 with one always-failing token. -/
theorem c5_witness :
    (∀ tokens2 : List String, ∀ fuel2 : Nat,
        attemptCount (requestA envAllFail tokens2 [] none none).1 ≤ 50 ∧
          attemptCount (requestB envAllFail tokens2 [] fuel2).1 ≤ 50) ∧
      (((requestA envAllFail ["a"] [] none none).2).isOk = true ∨
        ((requestA envAllFail ["a"] [] none none).2).isError = true) ∧
      (((requestB envAllFail ["a"] [] 50).2).isOk = true ∨
        ((requestB envAllFail ["a"] [] 50).2).isError = true) :=
  c5_bounded_attempts_total envAllFail ["a"] [] none none 50
    (by decide) (by decide) (by decide)

/-- C6: if attempt k (1-based, k = j + 1 ≤ 50) yields a 2xx response with
a JSON-parseable body while all earlier attempts fail, then each request
variant returns exactly that parsed body, performs exactly k HTTP attempts
(none after attempt k), and its trace ends with that attempt - so no token
rotation backoff and no notification happen after attempt k.  The
nonempty / nonfalsy hypotheses ensure the part_000 variant reaches a fetch
at all. -/
theorem c6_success_stops (env : Nat → FetchResult) (tokens : List String)
    (caller : List (String × String)) (apiKey accountEmail : Option String)
    (fuel j : Nat) (body : String)
    (hne : tokens ≠ []) (htok : ∀ t ∈ tokens, t ≠ "") (hfuel : 50 ≤ fuel)
    (hj : j < 50) (hbefore : ∀ m, m < j → fetchSuccess (env m) = none)
    (hsucc : fetchSuccess (env j) = some body) :
    (requestA env tokens caller apiKey accountEmail).2 = ReqResult.ok body ∧
      attemptCount (requestA env tokens caller apiKey accountEmail).1 = j + 1 ∧
      (∃ pre tok hdrs, (requestA env tokens caller apiKey accountEmail).1 =
        pre ++ [Event.attempt tok hdrs]) ∧
      (requestB env tokens caller fuel).2 = ReqResult.ok body ∧
      attemptCount (requestB env tokens caller fuel).1 = j + 1 ∧
      (∃ pre tok hdrs, (requestB env tokens caller fuel).1 =
        pre ++ [Event.attempt tok hdrs]) := by
  have hlen : 0 < tokens.length := List.length_pos.mpr hne
  have hA := goA_success env tokens caller apiKey accountEmail 50 0 (some 0) j body
    (Nat.zero_le _) (by omega) (fun m h1 h2 => hbefore m h2) hsucc
  have hB := goB_success env tokens caller htok hj hsucc fuel 0 0 none none hlen
    (Nat.zero_le _) (by omega) (fun m h1 h2 => hbefore m h2)
  refine ⟨hA.1, ?_, hA.2.2, hB.1, ?_, hB.2.2⟩
  · have h : attemptCount (requestA env tokens caller apiKey accountEmail).1 = j + 1 - 0 :=
      hA.2.1
    omega
  · have h : attemptCount (requestB env tokens caller fuel).1 = j + 1 - 0 := hB.2.1
    omega

/-- Witness for C6 with success on the first attempt. -/
theorem c6_witness :
    (requestA envAllOk ["a"] [] none none).2 = ReqResult.ok "data" ∧
      attemptCount (requestA envAllOk ["a"] [] none none).1 = 1 ∧
      (∃ pre tok hdrs, (requestA envAllOk ["a"] [] none none).1 =
        pre ++ [Event.attempt tok hdrs]) ∧
      (requestB envAllOk ["a"] [] 50).2 = ReqResult.ok "data" ∧
      attemptCount (requestB envAllOk ["a"] [] 50).1 = 1 ∧
      (∃ pre tok hdrs, (requestB envAllOk ["a"] [] 50).1 =
        pre ++ [Event.attempt tok hdrs]) :=
  c6_success_stops envAllOk ["a"] [] none none 50 0 "data" (by decide) (by decide)
    (by decide) (by decide) (fun m hm => absurd hm (Nat.not_lt_zero m)) (by decide)

/-- C3 counterexample: the helpers.js variant exhausts all 50 attempts and
signals failure to the caller without ever invoking the webhook notifier,
refuting the claim for that copy of `request`. -/
theorem c3_counterexample :
    notifyCount (requestA envAllFail ["a"] [] none none).1 = 0 ∧
      (requestA envAllFail ["a"] [] none none).2 =
        ReqResult.error "All tokens failed after maximum attempts" :=
  ⟨goA_notify_zero envAllFail ["a"] [] none none 50 0 (some 0),
    (goA_fail_all envAllFail ["a"] [] none none 50 0 (some 0) (fun m h1 h2 => rfl)).1⟩

/-- C3 amended: in the part_000 variant a run that exhausts the maximum
number of attempts invokes the webhook notifier exactly once, as the last
recorded action before the error is raised, and the notification message
embeds the last HTTP status observed during the attempts (rendered
"unknown status" when no response was ever received); the helpers.js
variant throws on exhaustion without notifying (see the counterexample). -/
theorem c3_notify_on_exhaustion (env : Nat → FetchResult) (tokens : List String)
    (caller : List (String × String)) (fuel : Nat)
    (hne : tokens ≠ []) (htok : ∀ t ∈ tokens, t ≠ "") (hfuel : 50 ≤ fuel)
    (hfail : ∀ m, m < 50 → fetchSuccess (env m) = none) :
    ((requestB env tokens caller fuel).2).isError = true ∧
      (requestB env tokens caller fuel).1.getLast? =
        some (Event.notify (notifyMsg (lastStatus env 50))) ∧
      notifyCount (requestB env tokens caller fuel).1 = 1 ∧
      notifyMsg (lastStatus env 50) =
        "An HTTP error has occurred (" ++ statusText (lastStatus env 50) ++
          ") while making a web request. Please check the logs for further details." := by
  have hlen : 0 < tokens.length := List.length_pos.mpr hne
  have h := goB_exhaust env tokens caller htok hfail fuel 0 0 hlen (by omega) (by omega)
  refine ⟨?_, h.2.1, h.2.2, rfl⟩
  show ((goB env tokens caller fuel 0 (some 0) (lastStatus env 0) (lastData env 0)).2).isError =
    true
  rw [h.1]
  rfl

/-- Witness for the amended C3 with one always-failing token. -/
theorem c3_witness :
    ((requestB envAllFail ["a"] [] 50).2).isError = true ∧
      (requestB envAllFail ["a"] [] 50).1.getLast? =
        some (Event.notify (notifyMsg (lastStatus envAllFail 50))) ∧
      notifyCount (requestB envAllFail ["a"] [] 50).1 = 1 ∧
      notifyMsg (lastStatus envAllFail 50) =
        "An HTTP error has occurred (" ++ statusText (lastStatus envAllFail 50) ++
          ") while making a web request. Please check the logs for further details." :=
  c3_notify_on_exhaustion envAllFail ["a"] [] 50 (by decide) (by decide) (by decide)
    (fun m hm => rfl)

/-- C1 counterexample: in the part_000 variant with two tokens, the first
failed attempt rotates the index from 0 to 1 - not a wrap back to 0, so no
full cycle is complete - yet a 5000 ms backoff is performed before the
second attempt: the delay there is per failed attempt, not per full cycle. -/
theorem c1_counterexample :
    requestB envOkAfterOne ["a", "b"] [] 50 =
      ([Event.attempt (some "a")
          [("Authorization", "Bearer a"), ("Content-Type", "application/json")],
        Event.backoff,
        Event.attempt (some "b")
          [("Authorization", "Bearer b"), ("Content-Type", "application/json")]],
        ReqResult.ok "ok") := by decide

/-- C1 amended: in the helpers.js variant the 5000 ms backoff happens
exactly once per full cycle through the credential set: over any run the
number of backoffs is the number of failed attempts divided (integer
division) by the set size N, a backoff occurring exactly when the rotated
index wraps to 0.  The part_000 variant instead delays after every failed
attempt except the one that exhausts the budget (see the counterexample). -/
theorem c1_backoff_per_cycle (env : Nat → FetchResult) (tokens : List String)
    (caller : List (String × String)) (apiKey accountEmail : Option String)
    (hN : 0 < tokens.length) :
    backoffCount (requestA env tokens caller apiKey accountEmail).1 =
      (attemptCount (requestA env tokens caller apiKey accountEmail).1 -
        (if ((requestA env tokens caller apiKey accountEmail).2).isOk = true then 1 else 0)) /
        tokens.length := by
  show backoffCount (goA env tokens caller apiKey accountEmail 50 0 (some 0)).1 =
    (attemptCount (goA env tokens caller apiKey accountEmail 50 0 (some 0)).1 -
      (if ((goA env tokens caller apiKey accountEmail 50 0 (some 0)).2).isOk = true
        then 1 else 0)) / tokens.length
  rw [goA_backoff env tokens caller apiKey accountEmail hN 50 0 0 hN]
  congr 1
  omega

/-- Witness for the amended C1: one token, every attempt failing, gives
50 backoffs = 50 failures / 1.  -/
theorem c1_witness :
    backoffCount (requestA envAllFail ["a"] [] none none).1 =
      (attemptCount (requestA envAllFail ["a"] [] none none).1 -
        (if ((requestA envAllFail ["a"] [] none none).2).isOk = true then 1 else 0)) / 1 :=
  c1_backoff_per_cycle envAllFail ["a"] [] none none (by decide)

/-- C9 counterexample: from one and the same configuration
(API_TOKEN = "t0", API_TOKEN_1 = "t1", the other slots unset) the two
variants build their credential lists in different orders, so already the
first attempt consumes different tokens and sends different Authorization
headers: the two copies do not implement the same logic. -/
theorem c9_counterexample :
    (requestA envAllOk (credsA (some "t1") none none (some "t0")) [] none none).1 =
        [Event.attempt (some "t1")
          [("Authorization", "Bearer t1"), ("Content-Type", "application/json")]] ∧
      (requestB envAllOk (credsB (some "t0") (some "t1") none none) [] 50).1 =
        [Event.attempt (some "t0")
          [("Authorization", "Bearer t0"), ("Content-Type", "application/json")]] := by
  decide

/-- C9 amended: the two copies are not equivalent - they consume the
credential slots in different orders and differ in backoff and
notification side effects (see the counterexample and the C1/C3
theorems) - but their final results agree whenever they are driven by the
same per-attempt outcome sequence over the same nonempty falsiness-free
credential list: if some attempt among the first 50 succeeds, both return
that parsed body, and if all 50 attempts fail, both raise a terminal
error. -/
theorem c9_variants_agreement (env : Nat → FetchResult) (tokens : List String)
    (caller : List (String × String)) (apiKey accountEmail : Option String) (fuel : Nat)
    (hne : tokens ≠ []) (htok : ∀ t ∈ tokens, t ≠ "") (hfuel : 50 ≤ fuel) :
    (∀ j body, j < 50 → (∀ m, m < j → fetchSuccess (env m) = none) →
        fetchSuccess (env j) = some body →
        (requestA env tokens caller apiKey accountEmail).2 = ReqResult.ok body ∧
          (requestB env tokens caller fuel).2 = ReqResult.ok body) ∧
      ((∀ m, m < 50 → fetchSuccess (env m) = none) →
        ((requestA env tokens caller apiKey accountEmail).2).isError = true ∧
          ((requestB env tokens caller fuel).2).isError = true) := by
  have hlen : 0 < tokens.length := List.length_pos.mpr hne
  constructor
  · intro j body hj hbefore hsucc
    have hA := goA_success env tokens caller apiKey accountEmail 50 0 (some 0) j body
      (Nat.zero_le _) (by omega) (fun m h1 h2 => hbefore m h2) hsucc
    have hB := goB_success env tokens caller htok hj hsucc fuel 0 0 none none hlen
      (Nat.zero_le _) (by omega) (fun m h1 h2 => hbefore m h2)
    exact ⟨hA.1, hB.1⟩
  · intro hfail
    have hA := goA_fail_all env tokens caller apiKey accountEmail 50 0 (some 0)
      (fun m h1 h2 => hfail m (by omega))
    have hB := goB_exhaust env tokens caller htok hfail fuel 0 0 hlen (by omega) (by omega)
    constructor
    · show ((goA env tokens caller apiKey accountEmail 50 0 (some 0)).2).isError = true
      rw [hA.1]
      rfl
    · show ((goB env tokens caller fuel 0 (some 0)
        (lastStatus env 0) (lastData env 0)).2).isError = true
      rw [hB.1]
      rfl

/-- Witness for the amended C9 with one always-succeeding token. -/
theorem c9_witness :
    (∀ j body, j < 50 → (∀ m, m < j → fetchSuccess (envAllOk m) = none) →
        fetchSuccess (envAllOk j) = some body →
        (requestA envAllOk ["a"] [] none none).2 = ReqResult.ok body ∧
          (requestB envAllOk ["a"] [] 50).2 = ReqResult.ok body) ∧
      ((∀ m, m < 50 → fetchSuccess (envAllOk m) = none) →
        ((requestA envAllOk ["a"] [] none none).2).isError = true ∧
          ((requestB envAllOk ["a"] [] 50).2).isError = true) :=
  c9_variants_agreement envAllOk ["a"] [] none none 50 (by decide) (by decide) (by decide)

/-- C8 counterexample: in the helpers.js variant, when the current token
equals the configured API_KEY, a caller-supplied header under the key
X-Auth-Email - a key other than Authorization and Content-Type - is not
preserved: the header set actually sent binds it to the configured account
email instead of the caller's value. -/
theorem c8_counterexample :
    (requestA envAllOk ["k"] [("X-Auth-Email", "caller@example.net")]
        (some "k") (some "admin@example.net")).1 =
      [Event.attempt (some "k")
        [("Authorization", "Bearer k"), ("Content-Type", "application/json"),
          ("X-Auth-Email", "admin@example.net"), ("X-Auth-Key", "k"),
          ("X-Auth-Email", "caller@example.net")]] ∧
      List.lookup "X-Auth-Email"
        [(("Authorization" : String), ("Bearer k" : String)),
          ("Content-Type", "application/json"),
          ("X-Auth-Email", "admin@example.net"), ("X-Auth-Key", "k"),
          ("X-Auth-Email", "caller@example.net")] = some "admin@example.net" := by
  decide

/-- C8 amended: on every attempt of either variant the header set actually
sent is the caller headers overridden by the per-attempt header object;
under it Authorization maps to `Bearer <currentToken>` and Content-Type to
`application/json` even when the caller supplies those keys, and caller
headers under other keys are preserved - except that in the helpers.js
variant, when the current token equals the configured API_KEY, the keys
X-Auth-Email and X-Auth-Key are also overridden (see the counterexample);
the part_000 variant preserves every key other than Authorization and
Content-Type. -/
theorem c8_headers_override (env : Nat → FetchResult) (tokens : List String)
    (caller : List (String × String)) (apiKey accountEmail : Option String) (fuel : Nat) :
    (∀ tok hdrs,
        Event.attempt tok hdrs ∈ (requestA env tokens caller apiKey accountEmail).1 →
          hdrs = spreadMerge caller (authHeadersA tok apiKey accountEmail)) ∧
      (∀ tok hdrs, Event.attempt tok hdrs ∈ (requestB env tokens caller fuel).1 →
        hdrs = spreadMerge caller (authHeadersB tok)) ∧
      (∀ tok,
        List.lookup "Authorization" (spreadMerge caller (authHeadersA tok apiKey accountEmail)) =
            some ("Bearer " ++ jsStr tok) ∧
          List.lookup "Content-Type"
              (spreadMerge caller (authHeadersA tok apiKey accountEmail)) =
            some "application/json" ∧
          List.lookup "Authorization" (spreadMerge caller (authHeadersB tok)) =
            some ("Bearer " ++ jsStr tok) ∧
          List.lookup "Content-Type" (spreadMerge caller (authHeadersB tok)) =
            some "application/json") ∧
      (∀ tok key, key ≠ "Authorization" → key ≠ "Content-Type" → key ≠ "X-Auth-Email" →
        key ≠ "X-Auth-Key" →
        List.lookup key (spreadMerge caller (authHeadersA tok apiKey accountEmail)) =
          List.lookup key caller) ∧
      (∀ tok key, tok ≠ apiKey → key ≠ "Authorization" → key ≠ "Content-Type" →
        List.lookup key (spreadMerge caller (authHeadersA tok apiKey accountEmail)) =
          List.lookup key caller) ∧
      (∀ tok key, key ≠ "Authorization" → key ≠ "Content-Type" →
        List.lookup key (spreadMerge caller (authHeadersB tok)) = List.lookup key caller) := by
  refine ⟨?_, ?_, ?_, ?_, ?_, ?_⟩
  · intro tok hdrs h
    exact goA_headers env tokens caller apiKey accountEmail 50 0 (some 0) tok hdrs h
  · intro tok hdrs h
    exact goB_headers env tokens caller fuel 0 (some 0) none none tok hdrs h
  · intro tok
    exact ⟨lookup_spread_hit rfl, lookup_spread_hit rfl,
      lookup_spread_hit rfl, lookup_spread_hit rfl⟩
  · intro tok key h1 h2 h3 h4
    exact lookup_spread_miss (lookup_authA_other h1 h2 h3 h4)
  · intro tok key hak h1 h2
    exact lookup_spread_miss (lookup_authA_other_of_ne hak h1 h2)
  · intro tok key h1 h2
    exact lookup_spread_miss (lookup_authB_other h1 h2)

/-- Witness for the amended C8 at a concrete run: one token "a", caller
header Accept, API key unset. -/
theorem c8_witness :
    (∀ tok hdrs, Event.attempt tok hdrs ∈
          (requestA envAllOk ["a"] [("Accept", "text/plain")] none none).1 →
        hdrs = spreadMerge [("Accept", "text/plain")] (authHeadersA tok none none)) ∧
      (∀ tok hdrs, Event.attempt tok hdrs ∈
          (requestB envAllOk ["a"] [("Accept", "text/plain")] 50).1 →
        hdrs = spreadMerge [("Accept", "text/plain")] (authHeadersB tok)) ∧
      (∀ tok,
        List.lookup "Authorization"
            (spreadMerge [("Accept", "text/plain")] (authHeadersA tok none none)) =
            some ("Bearer " ++ jsStr tok) ∧
          List.lookup "Content-Type"
              (spreadMerge [("Accept", "text/plain")] (authHeadersA tok none none)) =
            some "application/json" ∧
          List.lookup "Authorization"
              (spreadMerge [("Accept", "text/plain")] (authHeadersB tok)) =
            some ("Bearer " ++ jsStr tok) ∧
          List.lookup "Content-Type"
              (spreadMerge [("Accept", "text/plain")] (authHeadersB tok)) =
            some "application/json") ∧
      (∀ tok key, key ≠ "Authorization" → key ≠ "Content-Type" → key ≠ "X-Auth-Email" →
        key ≠ "X-Auth-Key" →
        List.lookup key (spreadMerge [("Accept", "text/plain")] (authHeadersA tok none none)) =
          List.lookup key [("Accept", "text/plain")]) ∧
      (∀ tok key, tok ≠ none → key ≠ "Authorization" → key ≠ "Content-Type" →
        List.lookup key (spreadMerge [("Accept", "text/plain")] (authHeadersA tok none none)) =
          List.lookup key [("Accept", "text/plain")]) ∧
      (∀ tok key, key ≠ "Authorization" → key ≠ "Content-Type" →
        List.lookup key (spreadMerge [("Accept", "text/plain")] (authHeadersB tok)) =
          List.lookup key [("Accept", "text/plain")]) :=
  c8_headers_override envAllOk ["a"] [("Accept", "text/plain")] none none 50

end CGPS
